import Mathlib

/-!
Verification of the Matrix-style profile-stream application (`main.js`).

Random samples from `Math.random()` are modelled as rational parameters
`u` with `0 ≤ u < 1`; all numeric code is embedded over `ℚ`/`ℤ`.
-/

namespace MatrixApp

/-- `rand(min, max)` from main.js: `Math.random() * (max - min) + min`,
with the `Math.random()` draw passed explicitly as `u`. -/
def rand (u min max : ℚ) : ℚ := u * (max - min) + min

/-- `randi(min, max)` from main.js: `Math.floor(rand(min, max))`. -/
def randi (u min max : ℚ) : ℤ := ⌊rand u min max⌋

/-- `clamp(v, a, b)` from main.js: `v < a ? a : v > b ? b : v`. -/
def clamp {α : Type} [LinearOrder α] (v a b : α) : α :=
  if v < a then a else if b < v then b else v

/-- The `moodBias` table inside `riskFromIncomeAndMood`, with the
`|| 0` fallback for unknown moods. -/
def moodBias (mood : String) : ℤ :=
  if mood = "burnout" then 15
  else if mood = "stressed" then 10
  else if mood = "distracted" then 8
  else if mood = "focused" then -5
  else if mood = "calm" then -5
  else if mood = "flow" then -8
  else if mood = "optimistic" then -3
  else if mood = "curious" then 0
  else 0

/-- `riskFromIncomeAndMood(income, mood)` from main.js, with the
`rand(10, 90)` draw passed explicitly as `u10_90`. -/
def riskFromIncomeAndMood (u10_90 : ℚ) (income : ℤ) (mood : String) : ℤ :=
  let r0 : ℚ := u10_90
  let r1 : ℚ := if income > 150000 then r0 - 10 else r0
  let r2 : ℚ := if income < 40000 then r1 + 10 else r1
  let r3 : ℚ := r2 + (moodBias mood : ℚ)
  clamp (round r3) 0 100

/-- The income adjustment as the spec words it: −10 if income > 150,000,
+10 if income < 40,000, 0 otherwise. -/
def specIncomeAdjustment (income : ℤ) : ℤ :=
  if income > 150000 then -10 else if income < 40000 then 10 else 0

theorem clamp_le_of_le {α : Type} [LinearOrder α] (v a b : α) (hab : a ≤ b) :
    a ≤ clamp v a b ∧ clamp v a b ≤ b := by
  unfold clamp
  split
  · exact ⟨le_refl a, hab⟩
  · split
    · exact ⟨hab, le_refl b⟩
    · constructor
      · exact le_of_not_lt (by assumption)
      · exact le_of_not_lt (by assumption)

/-- **C1.** For every sampled value of `rand(10,90)`, every income and every
mood, the risk score computed by `riskFromIncomeAndMood` equals
`clamp(round(u + incomeAdjustment + moodAdjustment), 0, 100)` where the
income adjustment is −10 for income > 150,000, +10 for income < 40,000 and
0 otherwise, and the mood adjustment is the fixed per-mood table
(burnout +15, stressed +10, distracted +8, focused −5, calm −5, flow −8,
optimistic −3, curious 0); consequently the risk score is always in [0, 100]. -/
theorem risk_score_formula_and_bounds (u : ℚ) (income : ℤ) (mood : String) :
    riskFromIncomeAndMood u income mood
      = clamp (round (u + (specIncomeAdjustment income : ℚ) + (moodBias mood : ℚ))) 0 100
    ∧ 0 ≤ riskFromIncomeAndMood u income mood
    ∧ riskFromIncomeAndMood u income mood ≤ 100
    ∧ moodBias "burnout" = 15 ∧ moodBias "stressed" = 10
    ∧ moodBias "distracted" = 8 ∧ moodBias "focused" = -5
    ∧ moodBias "calm" = -5 ∧ moodBias "flow" = -8
    ∧ moodBias "optimistic" = -3 ∧ moodBias "curious" = 0 := by
  refine ⟨?_, ?_, ?_, by decide, by decide, by decide, by decide, by decide,
    by decide, by decide, by decide⟩
  · unfold riskFromIncomeAndMood specIncomeAdjustment
    by_cases h1 : income > 150000
    · have h2 : ¬ income < 40000 := by omega
      simp only [if_neg h2, if_pos h1]
      have harg : u - 10 + (moodBias mood : ℚ)
          = u + ((-10 : ℤ) : ℚ) + (moodBias mood : ℚ) := by push_cast; ring
      rw [harg]
    · by_cases h2 : income < 40000
      · simp only [if_neg h1, if_pos h2]
        have harg : u + 10 + (moodBias mood : ℚ)
            = u + ((10 : ℤ) : ℚ) + (moodBias mood : ℚ) := by push_cast; ring
        rw [harg]
      · simp only [if_neg h1, if_neg h2]
        have harg : u + (moodBias mood : ℚ)
            = u + ((0 : ℤ) : ℚ) + (moodBias mood : ℚ) := by push_cast; ring
        rw [harg]
  · exact (clamp_le_of_le _ 0 100 (by norm_num)).1
  · exact (clamp_le_of_le _ 0 100 (by norm_num)).2

/-- The column count computed by `MatrixRain.resetColumns`:
`density = 0.7 * CONFIG.densityScale;
 numCols = Math.max(8, Math.floor((w / size) * density))`. -/
def resetColumnsCount (w size densityScale : ℚ) : ℤ :=
  max 8 ⌊(w / size) * (7/10 * densityScale)⌋

/-- The desired column count recomputed in `MatrixRain.update`'s
drift-detection path:
`Math.max(8, Math.floor((canvas.clientWidth / size) * 0.7 * CONFIG.densityScale))`. -/
def updateDesiredCols (w size densityScale : ℚ) : ℤ :=
  max 8 ⌊w / size * (7/10) * densityScale⌋

/-- **C2.** For every viewport width, cell size and density scale, the column
count produced by `resetColumns` and the desired count recomputed in
`update`'s drift-detection path are equal, and both equal
`max(8, floor((width / cellSize) * 0.7 * densityScale))`; in particular,
with densityScale = 1, width 800 and cell size 16 the count is 35. -/
theorem column_count_paths_agree (w size densityScale : ℚ) :
    resetColumnsCount w size densityScale = updateDesiredCols w size densityScale
    ∧ updateDesiredCols w size densityScale
        = max 8 ⌊(w / size) * (7/10) * densityScale⌋
    ∧ resetColumnsCount 800 16 1 = 35
    ∧ updateDesiredCols 800 16 1 = 35 := by
  refine ⟨?_, rfl, ?_, ?_⟩
  case refine_2 =>
    unfold resetColumnsCount
    norm_num
  case refine_3 =>
    unfold updateDesiredCols
    norm_num
  unfold resetColumnsCount updateDesiredCols
  rw [mul_assoc]

/-- `CapsuleManager.tick(dt)` from main.js, with the `rand(0.6, 1.4)`
threshold draw passed explicitly. `baseRate = 1.0` as in the source.
Returns the new accumulator and whether `spawnRandom` was invoked. -/
def tick (spawnAccumulator : ℚ) (activeSize maxCapsules : ℕ)
    (dt capsuleRateScale threshold : ℚ) : ℚ × Bool :=
  let rate := 1 * capsuleRateScale
  let acc := spawnAccumulator + dt * rate
  if threshold ≤ acc then (0, decide (activeSize < maxCapsules)) else (acc, false)

/-- **C3.** Whenever the spawn accumulator crosses the randomized threshold
in [0.6, 1.4), a spawn is attempted only if the live-panel count is strictly
below `CONFIG.maxCapsules` (so the count never exceeds the maximum at the
instant a spawn is attempted), and the accumulator is reset to 0 on every
threshold crossing whether or not the cap blocked the spawn. -/
theorem tick_spawn_gate (acc : ℚ) (activeSize maxCapsules : ℕ)
    (dt capsuleRateScale threshold : ℚ)
    (hlo : 3/5 ≤ threshold) (hhi : threshold < 7/5) :
    ((tick acc activeSize maxCapsules dt capsuleRateScale threshold).2 = true
        → activeSize < maxCapsules ∧ activeSize ≤ maxCapsules)
    ∧ (threshold ≤ acc + dt * (1 * capsuleRateScale)
        → (tick acc activeSize maxCapsules dt capsuleRateScale threshold).1 = 0) := by
  unfold tick
  constructor
  · intro hspawn
    by_cases hcross : threshold ≤ acc + dt * (1 * capsuleRateScale)
    · simp only [if_pos hcross, decide_eq_true_eq] at hspawn
      exact ⟨hspawn, le_of_lt hspawn⟩
    · simp only [if_neg hcross] at hspawn
      exact absurd hspawn (by simp)
  · intro hcross
    simp only [if_pos hcross]

/-- Concrete instantiation of `tick_spawn_gate` at accumulator 1, 0 live
panels, cap 12, dt 0, rate scale 1, threshold 1. -/
theorem tick_spawn_gate_witness :
    (3/5 : ℚ) ≤ 1 ∧ (1 : ℚ) < 7/5
    ∧ (((tick 1 0 12 0 1 1).2 = true → 0 < 12 ∧ 0 ≤ 12)
        ∧ ((1 : ℚ) ≤ 1 + 0 * (1 * 1) → (tick 1 0 12 0 1 1).1 = 0)) :=
  ⟨by norm_num, by norm_num, tick_spawn_gate 1 0 12 0 1 1 (by norm_num) (by norm_num)⟩

/-- Left-pad a decimal string to 3 digits with zeros, for the inner
thousands groups produced by the comma-insertion regex. -/
def pad3 (s : String) : String :=
  if s.length = 1 then "00" ++ s else if s.length = 2 then "0" ++ s else s

/-- Thousands grouping of a natural number, the effect of
`x.toString().replace(/\B(?=(\d\x7b3\x7d)+(?!\d))/g, ',')` in
`formatMoneyUSD`: a comma before every group of three digits counted from
the right. Structural recursion on a fuel argument (`n` itself suffices,
since `n / 1000 < n` shrinks strictly). -/
def commaGroupAux : ℕ → ℕ → String
  | 0, n => toString n
  | fuel + 1, n =>
    if n < 1000 then toString n
    else commaGroupAux fuel (n / 1000) ++ "," ++ pad3 (toString (n % 1000))

def commaGroup (n : ℕ) : String := commaGroupAux n n

/-- `formatMoneyUSD(n)` from main.js, on integer inputs (the only inputs the
app passes): sign, dollar sign, comma-grouped absolute value.
(`Math.round` is the identity on integers.) -/
def formatMoneyUSD (n : ℤ) : String :=
  (if n < 0 then "-" else "") ++ "$" ++ commaGroup n.natAbs

/-- The profile fields that `CapsuleManager.spawnRandom`'s inline mode
serializes. -/
structure Profile where
  id : String
  age : ℕ
  job_title : String
  emotional_state : String
  income_usd : ℤ
  risk_score : ℤ

/-- The inline-mode serialization in `CapsuleManager.spawnRandom`:
the six `key=value` strings joined by `' | '`. -/
def inlineText (p : Profile) : String :=
  String.intercalate " | "
    [ "id=" ++ p.id
    , "age=" ++ toString p.age
    , "job=" ++ p.job_title
    , "emotional=" ++ p.emotional_state
    , "income=" ++ formatMoneyUSD p.income_usd
    , "risk=" ++ toString p.risk_score ]

/-- **C4.** A spawn in mode "inline" with profile id="x1-abcd", age=30,
job_title="Engineer", emotional_state="calm", income_usd=95000,
risk_score=40 serializes to exactly
`id=x1-abcd | age=30 | job=Engineer | emotional=calm | income=$95,000 | risk=40`. -/
theorem inline_serialization_scenario :
    inlineText ⟨"x1-abcd", 30, "Engineer", "calm", 95000, 40⟩
      = "id=x1-abcd | age=30 | job=Engineer | emotional=calm | income=$95,000 | risk=40" := by
  decide

/-- The fixed interest pool in `ProfileFactory.interestsSet`. -/
def interestPool : List String :=
  ["climbing", "reading", "ai", "music", "crypto", "gardening", "photography",
   "biking", "chess", "vr", "cooking", "yoga", "travel", "gaming"]

/-- `ProfileFactory.interestsSet()` from main.js: `n = randi(2, 6)`, shuffle a
copy of the pool, take the first `n`. The shuffle (`sort` with a random
comparator) is modelled as an arbitrary permutation `shuffled` of the pool;
the `randi` draw is passed explicitly as `u`. -/
def interestsSet (u : ℚ) (shuffled : List String) : List String :=
  shuffled.take (randi u 2 6).toNat

theorem randi_two_six_bounds (u : ℚ) (h0 : 0 ≤ u) (h1 : u < 1) :
    2 ≤ randi u 2 6 ∧ randi u 2 6 ≤ 5 := by
  unfold randi rand
  constructor
  · apply Int.le_floor.mpr
    push_cast
    nlinarith
  · have : ⌊u * (6 - 2) + 2⌋ < 6 := by
      apply Int.floor_lt.mpr
      push_cast
      nlinarith
    omega

/-- **C5.** Every generated interests list has between 2 and 6 elements
(inclusive), all distinct, all drawn from the fixed pool. -/
theorem interests_card_unique_from_pool (u : ℚ) (shuffled : List String)
    (h0 : 0 ≤ u) (h1 : u < 1) (hperm : shuffled.Perm interestPool) :
    2 ≤ (interestsSet u shuffled).length
    ∧ (interestsSet u shuffled).length ≤ 6
    ∧ (interestsSet u shuffled).Nodup
    ∧ ∀ x ∈ interestsSet u shuffled, x ∈ interestPool := by
  obtain ⟨hlo, hhi⟩ := randi_two_six_bounds u h0 h1
  have hlen14 : shuffled.length = 14 := by
    rw [hperm.length_eq]; rfl
  have hlen : (interestsSet u shuffled).length = (randi u 2 6).toNat := by
    unfold interestsSet
    rw [List.length_take, hlen14]
    omega
  refine ⟨by omega, by omega, ?_, ?_⟩
  · have hnodup : shuffled.Nodup := hperm.nodup_iff.mpr (by decide)
    exact hnodup.sublist (List.take_sublist _ _)
  · intro x hx
    exact hperm.mem_iff.mp (List.mem_of_mem_take hx)

/-- Concrete instantiation of `interests_card_unique_from_pool` at `u = 0`
with the identity shuffle. -/
theorem interests_card_unique_from_pool_witness :
    (0 : ℚ) ≤ 0 ∧ (0 : ℚ) < 1 ∧ interestPool.Perm interestPool
    ∧ (2 ≤ (interestsSet 0 interestPool).length
        ∧ (interestsSet 0 interestPool).length ≤ 6
        ∧ (interestsSet 0 interestPool).Nodup
        ∧ ∀ x ∈ interestsSet 0 interestPool, x ∈ interestPool) :=
  ⟨le_refl 0, by norm_num, List.Perm.refl _,
    interests_card_unique_from_pool 0 interestPool (le_refl 0) (by norm_num)
      (List.Perm.refl _)⟩

/-- The per-industry income ranges in `ProfileFactory.sampleIncome`,
including the `|| [40000, 120000]` fallback. -/
def incomeBase (ind : String) : ℤ × ℤ :=
  if ind = "Tech" then (80000, 220000)
  else if ind = "Finance" then (70000, 250000)
  else if ind = "Healthcare" then (50000, 180000)
  else if ind = "Education" then (35000, 120000)
  else if ind = "Retail" then (30000, 90000)
  else if ind = "Energy" then (60000, 200000)
  else if ind = "Gaming" then (45000, 150000)
  else if ind = "Media" then (40000, 140000)
  else if ind = "Gov" then (40000, 120000)
  else if ind = "Aerospace" then (70000, 210000)
  else (40000, 120000)

/-- `ProfileFactory.sampleIncome(industry)` from main.js:
`Math.round(rand(base[0], base[1]) / 1000) * 1000`, with the random draw
passed explicitly as `u`. -/
def sampleIncome (u : ℚ) (ind : String) : ℤ :=
  round (rand u ((incomeBase ind).1 : ℚ) ((incomeBase ind).2 : ℚ) / 1000) * 1000

theorem incomeBase_props (ind : String) :
    1000 ∣ (incomeBase ind).1 ∧ 1000 ∣ (incomeBase ind).2
    ∧ (incomeBase ind).1 < (incomeBase ind).2 := by
  unfold incomeBase
  split_ifs <;> norm_num

theorem round_div_thousand_bounds (v : ℚ) (l h : ℤ)
    (hl : ((1000 * l : ℤ) : ℚ) ≤ v) (hh : v < ((1000 * h : ℤ) : ℚ)) :
    l ≤ round (v / 1000) ∧ round (v / 1000) ≤ h := by
  rw [round_eq]
  push_cast at hl hh
  constructor
  · apply Int.le_floor.mpr
    have : (l : ℚ) ≤ v / 1000 := by
      rw [le_div_iff₀ (by norm_num : (0:ℚ) < 1000)]
      linarith
    linarith
  · have hfl : ⌊v / 1000 + 1 / 2⌋ < h + 1 := by
      apply Int.floor_lt.mpr
      push_cast
      have : v / 1000 < (h : ℚ) := by
        rw [div_lt_iff₀ (by norm_num : (0:ℚ) < 1000)]
        linarith
      linarith
    omega

/-- **C6.** Every sampled income is a multiple of 1000 and lies within the
configured [low, high] income range of the given industry. -/
theorem sample_income_multiple_and_in_range (u : ℚ) (ind : String)
    (h0 : 0 ≤ u) (h1 : u < 1) :
    1000 ∣ sampleIncome u ind
    ∧ (incomeBase ind).1 ≤ sampleIncome u ind
    ∧ sampleIncome u ind ≤ (incomeBase ind).2 := by
  obtain ⟨⟨l, hl⟩, ⟨h, hh⟩, hlt⟩ := incomeBase_props ind
  unfold sampleIncome rand
  set L := (incomeBase ind).1 with hL
  set H := (incomeBase ind).2 with hH
  have hcast : ((L : ℚ)) < ((H : ℚ)) := by exact_mod_cast hlt
  have hvlo : ((1000 * l : ℤ) : ℚ) ≤ u * ((H : ℚ) - (L : ℚ)) + (L : ℚ) := by
    rw [← hl]
    nlinarith
  have hvhi : u * ((H : ℚ) - (L : ℚ)) + (L : ℚ) < ((1000 * h : ℤ) : ℚ) := by
    rw [← hh]
    nlinarith
  obtain ⟨hrlo, hrhi⟩ := round_div_thousand_bounds _ l h hvlo hvhi
  refine ⟨dvd_mul_left 1000 _, ?_, ?_⟩
  · linarith [hrlo]
  · linarith [hrhi]

/-- Concrete instantiation of `sample_income_multiple_and_in_range` at
`u = 0`, industry "Tech". -/
theorem sample_income_witness :
    (0 : ℚ) ≤ 0 ∧ (0 : ℚ) < 1
    ∧ (1000 ∣ sampleIncome 0 "Tech"
        ∧ (incomeBase "Tech").1 ≤ sampleIncome 0 "Tech"
        ∧ sampleIncome 0 "Tech" ≤ (incomeBase "Tech").2) :=
  ⟨le_refl 0, by norm_num,
    sample_income_multiple_and_in_range 0 "Tech" (le_refl 0) (by norm_num)⟩

/-- The inline content and style state of a capsule display node
(a `div` element), restricted to the properties main.js ever writes. -/
structure NodeStyle where
  className : String
  opacity : String
  innerHTML : String
  left : String
  top : String
  transform : String
deriving DecidableEq

/-- A freshly created node (`document.createElement('div')`): every inline
style and the content are empty. -/
def freshNode : NodeStyle := ⟨"", "", "", "", "", ""⟩

/-- The node writes at the start of `CapsuleManager.spawnRandom`
(lines setting `className`, `opacity`, `innerHTML`, `left`, `top`).
`transform` is not among them. -/
def spawnResetNode (n : NodeStyle) (mode leftPx topPx : String) : NodeStyle :=
  { n with
    className := "capsule " ++ mode
    opacity := "0"
    innerHTML := ""
    left := leftPx
    top := topPx }

/-- One non-final animation step of `CapsuleManager.dissolve`: writes
`opacity` and the random positional-jitter `transform`. -/
def dissolveStyleStep (n : NodeStyle) (fade transformJitter : String) : NodeStyle :=
  { n with opacity := fade, transform := transformJitter }

/-- **C7 (violated).** A node that went through a dissolve step acquired a
positional-jitter transform; `spawnRandom`'s reset writes do not clear it,
so the reused node still carries the stale transform and differs from a
fresh node. -/
theorem spawn_reset_leaves_stale_transform :
    (spawnResetNode
        (dissolveStyleStep freshNode "0.52" "translate3d(2.1px,-1.4px,0)")
        "inline" "100px" "50px").transform
      = "translate3d(2.1px,-1.4px,0)"
    ∧ (spawnResetNode
        (dissolveStyleStep freshNode "0.52" "translate3d(2.1px,-1.4px,0)")
        "inline" "100px" "50px").transform
      ≠ freshNode.transform := by
  exact ⟨rfl, by decide⟩

/-- The mutable capsule-manager state the dissolve path touches: the active
set and the node reuse pool. Nodes are abstracted to identifiers. -/
structure CapsState where
  active : List ℕ
  pool : List ℕ
deriving DecidableEq

/-- `CapsuleManager.releaseNode(node)`: remove from the document and
`pool.push(node)`. -/
def releaseNode (pool : List ℕ) (node : ℕ) : List ℕ := pool ++ [node]

/-- `CapsuleManager.getNode()`: `pool.pop()` (the last pushed element), or a
fresh element when the pool is empty. Returns the node and the new pool. -/
def getNode (pool : List ℕ) (fresh : ℕ) : ℕ × List ℕ :=
  match pool.getLast? with
  | some n => (n, pool.dropLast)
  | none => (fresh, pool)

/-- The `jitter` loop of `CapsuleManager.dissolve(node)` run over a list of
elapsed times (ms since `start`), one per animation frame. At the first
frame with `t / duration ≥ 1` the panel leaves the active set and its node
is pushed to the pool; earlier frames set opacity `1 - t / duration`.
Returns the final state, the sequence of opacity values written, and
whether the completion branch ran. -/
def dissolveFrames (duration : ℚ) (node : ℕ) (s : CapsState) :
    List ℚ → CapsState × List ℚ × Bool
  | [] => (s, [], false)
  | t :: ts =>
    if 1 ≤ t / duration then
      (⟨s.active.erase node, releaseNode s.pool node⟩, [], true)
    else
      let r := dissolveFrames duration node s ts
      (r.1, (1 - t / duration) :: r.2.1, r.2.2)

/-- **C8 as stated is false**: in a concrete dissolve run (duration 500 ms,
frames at 0, 250 and 500 ms) the panel completes — it is removed from the
active set and its node pooled — yet the opacity value 0 is never written;
the writes are exactly 1 and 1/2. -/
theorem dissolve_opacity_never_reaches_zero :
    (dissolveFrames 500 7 ⟨[7], []⟩ [0, 250, 500]).2.1 = [1, 1/2]
    ∧ (0 : ℚ) ∉ (dissolveFrames 500 7 ⟨[7], []⟩ [0, 250, 500]).2.1
    ∧ (dissolveFrames 500 7 ⟨[7], []⟩ [0, 250, 500]).2.2 = true
    ∧ (dissolveFrames 500 7 ⟨[7], []⟩ [0, 250, 500]).1 = ⟨[], [7]⟩ := by
  have hrun : dissolveFrames 500 7 ⟨[7], []⟩ [0, 250, 500]
      = (⟨[], [7]⟩, [1, 1/2], true) := by
    norm_num [dissolveFrames, releaseNode, List.erase]
  rw [hrun]
  norm_num

/-- **C8 (amended).** Over the fixed dissolve window, every opacity write is
the linear fade `1 - t/duration` of its frame time (hence strictly positive
and at most 1 — the value 0 is never written); once a frame at or beyond the
duration occurs, the panel is removed from the active set and its node
pushed to the reuse pool, and a subsequent `getNode` returns that pooled
node rather than allocating a fresh one. -/
theorem dissolve_fades_linearly_then_releases (d : ℚ) (node fresh : ℕ)
    (act pool : List ℕ) (times : List ℚ)
    (hd : 0 < d) (hex : ∃ t ∈ times, d ≤ t) (hnn : ∀ t ∈ times, 0 ≤ t) :
    (dissolveFrames d node ⟨act, pool⟩ times).2.2 = true
    ∧ (dissolveFrames d node ⟨act, pool⟩ times).1.active = act.erase node
    ∧ (getNode (dissolveFrames d node ⟨act, pool⟩ times).1.pool fresh).1 = node
    ∧ (dissolveFrames d node ⟨act, pool⟩ times).2.1
        = (times.takeWhile (fun t => decide (t / d < 1))).map (fun t => 1 - t / d)
    ∧ ∀ f ∈ (dissolveFrames d node ⟨act, pool⟩ times).2.1, 0 < f ∧ f ≤ 1 := by
  induction times with
  | nil => simp at hex
  | cons t ts ih =>
    by_cases hc : 1 ≤ t / d
    · have hpred : decide (t / d < 1) = false := by
        simp only [decide_eq_false_iff_not, not_lt]
        exact hc
      refine ⟨?_, ?_, ?_, ?_, ?_⟩
      · simp [dissolveFrames, if_pos hc]
      · simp [dissolveFrames, if_pos hc]
      · simp only [dissolveFrames, if_pos hc]
        unfold releaseNode getNode
        rw [List.getLast?_concat]
      · simp [dissolveFrames, if_pos hc, List.takeWhile, hpred]
      · simp [dissolveFrames, if_pos hc]
    · have hpred : decide (t / d < 1) = true := by
        simp only [decide_eq_true_eq]
        exact lt_of_not_le hc
      have htlt : t < d := (div_lt_one hd).mp (lt_of_not_le hc)
      have hex2 : ∃ t2 ∈ ts, d ≤ t2 := by
        obtain ⟨t2, ht2mem, ht2⟩ := hex
        rcases List.mem_cons.mp ht2mem with h | h
        · exfalso; rw [h] at ht2; exact absurd ht2 (not_le_of_lt htlt)
        · exact ⟨t2, h, ht2⟩
      have hnn2 : ∀ t2 ∈ ts, 0 ≤ t2 := fun t2 h => hnn t2 (List.mem_cons_of_mem _ h)
      obtain ⟨ih1, ih2, ih3, ih4, ih5⟩ := ih hex2 hnn2
      refine ⟨?_, ?_, ?_, ?_, ?_⟩
      · simpa [dissolveFrames, if_neg hc] using ih1
      · simpa [dissolveFrames, if_neg hc] using ih2
      · simpa [dissolveFrames, if_neg hc] using ih3
      · simp only [dissolveFrames, if_neg hc, List.takeWhile, hpred, List.map]
        exact congrArg _ ih4
      · simp only [dissolveFrames, if_neg hc]
        intro f hf
        rcases List.mem_cons.mp hf with h | h
        · subst h
          constructor
          · have : t / d < 1 := lt_of_not_le hc
            linarith
          · have h0 : 0 ≤ t / d := div_nonneg (hnn t (List.mem_cons_self _ _)) (le_of_lt hd)
            linarith
        · exact ih5 f h

/-- Concrete instantiation of `dissolve_fades_linearly_then_releases`:
duration 500, node 1 active, empty pool, frames at 0, 250 and 500 ms. -/
theorem dissolve_fades_linearly_then_releases_witness :
    (0 : ℚ) < 500 ∧ (∃ t ∈ [(0 : ℚ), 250, 500], 500 ≤ t)
    ∧ (∀ t ∈ [(0 : ℚ), 250, 500], 0 ≤ t)
    ∧ ((dissolveFrames 500 1 ⟨[1], []⟩ [0, 250, 500]).2.2 = true
        ∧ (dissolveFrames 500 1 ⟨[1], []⟩ [0, 250, 500]).1.active = [1].erase 1
        ∧ (getNode (dissolveFrames 500 1 ⟨[1], []⟩ [0, 250, 500]).1.pool 2).1 = 1
        ∧ (dissolveFrames 500 1 ⟨[1], []⟩ [0, 250, 500]).2.1
            = ([(0 : ℚ), 250, 500].takeWhile (fun t => decide (t / 500 < 1))).map
                (fun t => 1 - t / 500)
        ∧ ∀ f ∈ (dissolveFrames 500 1 ⟨[1], []⟩ [0, 250, 500]).2.1, 0 < f ∧ f ≤ 1) :=
  ⟨by norm_num, by decide, by decide,
    dissolve_fades_linearly_then_releases 500 1 2 [1] [] [0, 250, 500]
      (by norm_num) (by decide) (by decide)⟩

/-- The glyph-sheet index selected for trail position `i` in
`MatrixRain.draw`:
`col.glyphIndices[(i + (len - (i % len))) % len]` with
`len = col.glyphIndices.length`. `spawnColumn` builds `glyphIndices` with
length 60. -/
def glyphSheetIndex (glyphIndices : List ℕ) (i : ℕ) : ℕ :=
  glyphIndices.getD
    ((i + (glyphIndices.length - i % glyphIndices.length)) % glyphIndices.length) 0

/-- **C9.** For a column's 60-entry `glyphIndices` and every trail position
`i < 60` (stream lengths are `randi(10, 40)`, hence below 60), the selected
atlas index is always entry 0, so mutating any position other than 0 never
changes what is drawn; moreover every stream length drawn by `randi(10,40)`
is below 60. -/
theorem draw_always_selects_glyph_zero (g : List ℕ) (i : ℕ)
    (hg : g.length = 60) (hi : i < 60) :
    glyphSheetIndex g i = g.getD 0 0
    ∧ (∀ j v, j ≠ 0 → glyphSheetIndex (g.set j v) i = glyphSheetIndex g i)
    ∧ (∀ u : ℚ, 0 ≤ u → u < 1 → 10 ≤ randi u 10 40 ∧ randi u 10 40 < 60) := by
  have hmod : ∀ len, len = 60 → (i + (len - i % len)) % len = 0 := by
    intro len hlen
    subst hlen
    have h1 : i % 60 = i := Nat.mod_eq_of_lt hi
    rw [h1, Nat.add_sub_cancel' (le_of_lt hi), Nat.mod_self]
  refine ⟨?_, ?_, ?_⟩
  · unfold glyphSheetIndex
    rw [hmod g.length hg]
  · intro j v hj
    unfold glyphSheetIndex
    rw [hmod (g.set j v).length (by rw [List.length_set, hg]),
      hmod g.length hg,
      List.getD_eq_getElem?_getD, List.getD_eq_getElem?_getD,
      List.getElem?_set_ne (by omega)]
  · intro u h0 h1
    unfold randi rand
    constructor
    · apply Int.le_floor.mpr
      push_cast
      nlinarith
    · have : ⌊u * (40 - 10) + 10⌋ < 40 := by
        apply Int.floor_lt.mpr
        push_cast
        nlinarith
      omega

/-- Concrete instantiation of `draw_always_selects_glyph_zero` at a
60-entry index list and trail position 3. -/
theorem draw_always_selects_glyph_zero_witness :
    (List.replicate 60 5).length = 60 ∧ 3 < 60
    ∧ (glyphSheetIndex (List.replicate 60 5) 3 = (List.replicate 60 5).getD 0 0
        ∧ (∀ j v, j ≠ 0 →
            glyphSheetIndex ((List.replicate 60 5).set j v) 3
              = glyphSheetIndex (List.replicate 60 5) 3)
        ∧ (∀ u : ℚ, 0 ≤ u → u < 1 → 10 ≤ randi u 10 40 ∧ randi u 10 40 < 60)) :=
  ⟨by decide, by decide,
    draw_always_selects_glyph_zero (List.replicate 60 5) 3 (by decide) (by decide)⟩

/-- One sampled value of `CapsuleManager.makeSparkline(seed)`:
`clamp(Math.round(seed + (Math.random() - 0.5) * 20), 0, 100)`, with the
random draw passed explicitly as `uJitter`. -/
def sparklineValue (seed uJitter : ℚ) : ℤ :=
  clamp (round (seed + (uJitter - 1/2) * 20)) 0 100

/-- The block string `'▁▂▃▄▅▆▇█'` of `makeSparkline`, as its character
list. -/
def sparkBlocks : List Char := ['▁', '▂', '▃', '▄', '▅', '▆', '▇', '█']

/-- The block index `Math.floor(v / 12.5)` used to pick a character from
`sparkBlocks`. -/
def blockIndex (v : ℤ) : ℤ := ⌊(v : ℚ) / (25/2)⌋

/-- **C10 (violated).** At seed 100 with zero jitter the sampled value is
100, the computed block index is 8, which is out of bounds for the
8-character block string (lookup yields no character — `undefined` in the
source). Seed 100 is reachable: `riskFromIncomeAndMood` yields 100 at
draw 89, income 30000, mood "burnout". -/
theorem sparkline_block_index_out_of_bounds :
    sparklineValue 100 (1/2) = 100
    ∧ blockIndex (sparklineValue 100 (1/2)) = 8
    ∧ sparkBlocks.length = 8
    ∧ sparkBlocks.get? (blockIndex (sparklineValue 100 (1/2))).toNat = none
    ∧ riskFromIncomeAndMood 89 30000 "burnout" = 100 := by
  have hval : sparklineValue 100 (1/2) = 100 := by
    unfold sparklineValue
    have harg : (100 : ℚ) + (1/2 - 1/2) * 20 = 100 := by norm_num
    rw [harg, round_eq]
    norm_num [clamp]
  have hidx : blockIndex (sparklineValue 100 (1/2)) = 8 := by
    rw [hval]
    unfold blockIndex
    norm_num
  refine ⟨hval, hidx, rfl, ?_, ?_⟩
  · rw [hidx]
    rfl
  · unfold riskFromIncomeAndMood moodBias
    norm_num [round_eq, clamp]

end MatrixApp
